import Mathlib

/-!
Verification of the availability-decision engine of the marca-api
repository (trademark availability checker for INPI records).

The JavaScript helpers are embedded shallowly over `List Char` / `String`:

* `stripDiacriticsLower` models
  `s.normalize('NFD').replace(/[\u0300-\u036f]/g, '').toLowerCase().trim()`
  (called `normalize` in several source variants).  The `NFD` step is
  modelled for the Latin letters with canonical decompositions that occur
  in the data (code points below U+00C0 have no canonical decomposition
  and map to themselves).
* `canonical` additionally drops every character outside `[a-z0-9]`,
  modelling `.replace(/[^a-z0-9]+/g, '')`.
* `equalsLoose`, `situacaoPermite`, `decidirDisponibilidade` (the loose
  variant from `api/busca-marca.js`) and `decidirDisponibilidadeExata`
  (the exact-match variant with projected output records) are translated
  clause by clause.

JavaScript's `a.includes(b)` is modelled by `hasSub a b` (substring
containment), `x || y` on possibly missing string fields by `jsOr`, and
`x ?? y` by `Option.getD`.
-/

namespace BuscaMarca

/-- Combining diacritical marks, the range U+0300..U+036F removed by the
`replace` step. -/
def isCombining (c : Char) : Bool :=
  decide (0x300 ≤ c.toNat) && decide (c.toNat ≤ 0x36F)

/-- Canonical (NFD) decompositions of the precomposed Latin letters handled
by the embedding: each maps to its base letter followed by one combining
mark.  Code points below U+00C0 have no canonical decomposition. -/
def NFD_MAP : List (Char × Char × Char) := [
  ('À', 'A', '\u0300'), ('Á', 'A', '\u0301'), ('Â', 'A', '\u0302'),
  ('Ã', 'A', '\u0303'), ('Ä', 'A', '\u0308'), ('Å', 'A', '\u030a'),
  ('Ç', 'C', '\u0327'), ('È', 'E', '\u0300'), ('É', 'E', '\u0301'),
  ('Ê', 'E', '\u0302'), ('Ë', 'E', '\u0308'), ('Ì', 'I', '\u0300'),
  ('Í', 'I', '\u0301'), ('Î', 'I', '\u0302'), ('Ï', 'I', '\u0308'),
  ('Ñ', 'N', '\u0303'), ('Ò', 'O', '\u0300'), ('Ó', 'O', '\u0301'),
  ('Ô', 'O', '\u0302'), ('Õ', 'O', '\u0303'), ('Ö', 'O', '\u0308'),
  ('Ù', 'U', '\u0300'), ('Ú', 'U', '\u0301'), ('Û', 'U', '\u0302'),
  ('Ü', 'U', '\u0308'), ('Ý', 'Y', '\u0301'), ('à', 'a', '\u0300'),
  ('á', 'a', '\u0301'), ('â', 'a', '\u0302'), ('ã', 'a', '\u0303'),
  ('ä', 'a', '\u0308'), ('å', 'a', '\u030a'), ('ç', 'c', '\u0327'),
  ('è', 'e', '\u0300'), ('é', 'e', '\u0301'), ('ê', 'e', '\u0302'),
  ('ë', 'e', '\u0308'), ('ì', 'i', '\u0300'), ('í', 'i', '\u0301'),
  ('î', 'i', '\u0302'), ('ï', 'i', '\u0308'), ('ñ', 'n', '\u0303'),
  ('ò', 'o', '\u0300'), ('ó', 'o', '\u0301'), ('ô', 'o', '\u0302'),
  ('õ', 'o', '\u0303'), ('ö', 'o', '\u0308'), ('ù', 'u', '\u0300'),
  ('ú', 'u', '\u0301'), ('û', 'u', '\u0302'), ('ü', 'u', '\u0308'),
  ('ý', 'y', '\u0301'), ('ÿ', 'y', '\u0308')]

/-- NFD decomposition of one character. -/
def nfd (c : Char) : List Char :=
  if c.toNat < 0xC0 then [c]
  else
    match NFD_MAP.find? (fun e => e.1 == c) with
    | some e => [e.2.1, e.2.2]
    | none => [c]

/-- `normalize('NFD')` followed by removal of the combining marks. -/
def stripDiacritics (l : List Char) : List Char :=
  ((l.map nfd).flatten).filter (fun c => !isCombining c)

/-- Whitespace characters removed by JavaScript `trim()` (the ASCII
whitespace set plus NBSP, which covers the data handled here). -/
def isWsB (c : Char) : Bool :=
  decide (c.toNat = 32) || (decide (9 ≤ c.toNat) && decide (c.toNat ≤ 13)) ||
    decide (c.toNat = 160)

/-- JavaScript `trim()`: drop whitespace from both ends. -/
def trimL (l : List Char) : List Char :=
  ((l.dropWhile isWsB).reverse.dropWhile isWsB).reverse

/-- The diacritic-stripped, lowercased form of a string (before the final
`trim()` of the source's `stripDiacriticsLower`). -/
def lowerStripL (l : List Char) : List Char :=
  (stripDiacritics l).map Char.toLower

/-- `stripDiacriticsLower` / `normalize` of the source:
`s.normalize('NFD').replace(/[\u0300-\u036f]/g, '').toLowerCase().trim()`. -/
def normalizeL (l : List Char) : List Char :=
  trimL (lowerStripL l)

/-- Characters kept by `.replace(/[^a-z0-9]+/g, '')`. -/
def isLowerAlnum (c : Char) : Bool :=
  (decide (97 ≤ c.toNat) && decide (c.toNat ≤ 122)) ||
    (decide (48 ≤ c.toNat) && decide (c.toNat ≤ 57))

/-- `canonical` of the source: keep only ASCII lowercase letters and digits
of the normalized form. -/
def canonicalL (l : List Char) : List Char :=
  (normalizeL l).filter isLowerAlnum

/-- String-level `normalize` (`stripDiacriticsLower`). -/
def normalizeS (s : String) : String :=
  ⟨normalizeL s.data⟩

/-- String-level `canonical`. -/
def canonical (s : String) : String :=
  ⟨canonicalL s.data⟩

/-- `pat.isPre l` tests whether `pat` is a prefix of `l`. -/
def isPre : List Char → List Char → Bool
  | [], _ => true
  | _ :: _, [] => false
  | p :: ps, c :: cs => p == c && isPre ps cs

/-- `hasSub l pat` models JavaScript `l.includes(pat)`: `pat` occurs as a
contiguous substring of `l`. -/
def hasSub : List Char → List Char → Bool
  | [], pat => isPre pat []
  | c :: t, pat => isPre pat (c :: t) || hasSub t pat

/-- `equalsLoose` from `api/busca-marca.js`: canonical forms are equal or
one contains the other. -/
def equalsLoose (a b : String) : Bool :=
  let A := canonicalL a.data
  let B := canonicalL b.data
  A == B || hasSub A B || hasSub B A

/-- The terminal-status stem list `TERMINAIS_STEMS`. -/
def TERMINAIS_STEMS : List String :=
  ["indeferid", "negad", "arquiv", "extint", "caducad", "cancelad",
   "nulidade procedent", "nulo", "renunci"]

/-- `situacaoPermite`: the status is terminal (permits a new registration)
iff its normalized form contains one of the stems. -/
def situacaoPermite (situacao : String) : Bool :=
  TERMINAIS_STEMS.any (fun stem => hasSub (normalizeL situacao.data) stem.data)

/-- An upstream trademark record.  The upstream schemas vary, so every
field may be absent (`none` models a missing / undefined property). -/
structure Processo where
  marca : Option String := none
  situacao : Option String := none
  situacao_processual : Option String := none
  status : Option String := none
  numero : Option String := none
  processo : Option String := none
  titular : Option String := none
  classe : Option String := none
  classe_nice : Option String := none
deriving DecidableEq

/-- JavaScript `x || d` for a possibly missing string field: the default is
taken when the field is absent or the empty string (both falsy). -/
def jsOr : Option String → String → String
  | none, d => d
  | some s, d => if s = "" then d else s

/-- The verdict of the loose variant (`api/busca-marca.js`). -/
structure Decisao where
  disponivel : Bool
  motivo : String
deriving DecidableEq

/-- The relevant-record selection of the loose variant:
`processos.filter(p => equalsLoose(p.marca || '', marcaDigitada))`. -/
def exatosLoose (marcaDigitada : String) (processos : List Processo) :
    List Processo :=
  processos.filter (fun p => equalsLoose (jsOr p.marca "") marcaDigitada)

/-- `decidirDisponibilidade` from `api/busca-marca.js`. -/
def decidirDisponibilidade (marcaDigitada : String)
    (processos : List Processo) : Decisao :=
  if processos.isEmpty then
    { disponivel := true, motivo := "Nenhum registro encontrado (busca exata)" }
  else
    let exatos := exatosLoose marcaDigitada processos
    if exatos.isEmpty then
      { disponivel := true, motivo := "Nenhum registro exato encontrado" }
    else if exatos.all (fun p => situacaoPermite (jsOr p.situacao "")) then
      { disponivel := true,
        motivo := "Todas as situações são terminais (permite registro)" }
    else
      { disponivel := false,
        motivo := "Há situação(ões) não-terminais (ex.: registro em vigor, Alto Renome, exame, publicação, etc.)" }

/-- One record of the projected evidence list exposed by the exact
variant. -/
structure ProcessoOut where
  numero : String
  situacao : String
  titular : String
  classe : String
deriving DecidableEq

/-- The verdict of the exact variant, with the projected evidence list. -/
structure DecisaoExata where
  disponivel : Bool
  motivo : String
  processos : List ProcessoOut
deriving DecidableEq

/-- The status field with its fallbacks:
`p.situacao || p.situacao_processual || p.status || ''`. -/
def situacaoDe (p : Processo) : String :=
  jsOr p.situacao (jsOr p.situacao_processual (jsOr p.status ""))

/-- The output projection of the exact variant: number, status, holder and
class, with the source's field fallbacks (`??` for `numero`). -/
def projOut (p : Processo) : ProcessoOut :=
  { numero := p.numero.getD (p.processo.getD "")
    situacao := situacaoDe p
    titular := jsOr p.titular ""
    classe := jsOr p.classe (jsOr p.classe_nice "") }

/-- The relevant-record selection of the exact variant:
`processos.filter(p => normalize(p.marca || '') === normalize(marcaDigitada))`. -/
def exatosExata (marcaDigitada : String) (processos : List Processo) :
    List Processo :=
  processos.filter
    (fun p => normalizeS (jsOr p.marca "") == normalizeS marcaDigitada)

/-- `decidirDisponibilidade` of the exact-match variant (part_000). -/
def decidirDisponibilidadeExata (marcaDigitada : String)
    (processos : List Processo) : DecisaoExata :=
  if processos.isEmpty then
    { disponivel := true,
      motivo := "Nenhum registro encontrado (busca exata)", processos := [] }
  else
    let exatos := exatosExata marcaDigitada processos
    if exatos.isEmpty then
      { disponivel := true,
        motivo := "Nenhum registro exato encontrado", processos := [] }
    else if exatos.all (fun p => situacaoPermite (situacaoDe p)) then
      { disponivel := true, motivo := "Todas as situações são terminais",
        processos := exatos.map projOut }
    else
      { disponivel := false,
        motivo := "Há situação(ões) não-terminais (registro ativo, Alto Renome, exame, publicação, etc.)",
        processos := exatos.map projOut }

/-- The first mock record of the NATURA test fixture: an in-force
registration. -/
def procNatura1 : Processo :=
  { marca := some "NATURA", situacao := some "Registro de marca em vigor",
    numero := some "900000001", titular := some "Natura Cosméticos S.A.",
    classe := some "03" }

/-- The second mock record of the NATURA test fixture: a well-known-mark
protection. -/
def procNatura2 : Processo :=
  { marca := some "NATURA", situacao := some "Alto Renome",
    numero := some "900000002", titular := some "Natura Cosméticos S.A.",
    classe := some "03" }

/-- A record of the same mark in a terminal (archived) status. -/
def procArquivado : Processo :=
  { marca := some "NATURA", situacao := some "Pedido definitivamente arquivado" }

/-- A record whose name canonicalizes to the empty string, in a blocking
status. -/
def procPunct : Processo :=
  { marca := some "!!!", situacao := some "Registro de marca em vigor" }

/-- The record of the spec scenario for the exact policy: name
`TUNEL-CREW`, in force. -/
def procTunel : Processo :=
  { marca := some "TUNEL-CREW", situacao := some "Registro de marca em vigor" }

theorem isPre_iff (pat l : List Char) : isPre pat l = true ↔ pat <+: l := by
  induction pat generalizing l with
  | nil => simp [isPre]
  | cons p ps ih =>
    cases l with
    | nil => simp [isPre]
    | cons c cs =>
      simp [isPre, ih, List.cons_prefix_cons, Bool.and_eq_true, beq_iff_eq]

theorem hasSub_iff (l pat : List Char) : hasSub l pat = true ↔ pat <:+: l := by
  induction l with
  | nil => simp [hasSub, isPre_iff, List.infix_nil]
  | cons c t ih =>
    rw [hasSub, Bool.or_eq_true, isPre_iff, ih, List.infix_cons_iff]

theorem infix_dropWhile_iff (p : Char → Bool) (st l : List Char)
    (h : st.head?.all (fun c => !p c) = true) :
    st <:+: l.dropWhile p ↔ st <:+: l := by
  constructor
  · intro hi
    obtain ⟨s, hs⟩ := List.dropWhile_suffix (l := l) p
    exact hi.trans ⟨s, [], by simp [hs]⟩
  · intro hi
    induction l with
    | nil => simpa using hi
    | cons c t ih =>
      rw [List.dropWhile_cons]
      by_cases hc : p c = true
      · rw [if_pos hc]
        apply ih
        rcases List.infix_cons_iff.mp hi with hpre | hinf
        · cases st with
          | nil => exact ⟨[], t, rfl⟩
          | cons s ss =>
            have hsc : s = c := (List.cons_prefix_cons.mp hpre).1
            simp [Option.all, hsc, hc] at h
        · exact hinf
      · rw [if_neg hc]
        exact hi

theorem infix_rev {st l : List Char} (h : st <:+: l) :
    st.reverse <:+: l.reverse := by
  obtain ⟨s, t, rfl⟩ := h
  exact ⟨t.reverse, s.reverse, by simp⟩

theorem infix_trimL_iff (st l : List Char)
    (h1 : st.head?.all (fun c => !isWsB c) = true)
    (h2 : st.getLast?.all (fun c => !isWsB c) = true) :
    st <:+: trimL l ↔ st <:+: l := by
  have h2' : st.reverse.head?.all (fun c => !isWsB c) = true := by
    rw [List.head?_reverse]; exact h2
  unfold trimL
  constructor
  · intro hi
    have h3 := infix_rev hi
    rw [List.reverse_reverse] at h3
    have h4 := (infix_dropWhile_iff isWsB st.reverse _ h2').mp h3
    have h5 := infix_rev h4
    rw [List.reverse_reverse, List.reverse_reverse] at h5
    exact (infix_dropWhile_iff isWsB st l h1).mp h5
  · intro hi
    have h4 := (infix_dropWhile_iff isWsB st l h1).mpr hi
    have h5 := infix_rev h4
    have h6 := (infix_dropWhile_iff isWsB st.reverse _ h2').mpr h5
    have h7 := infix_rev h6
    rw [List.reverse_reverse] at h7
    exact h7

theorem decidir_disponivel_eq (q : String) (ps : List Processo) :
    (decidirDisponibilidade q ps).disponivel =
      (ps.isEmpty || (exatosLoose q ps).isEmpty ||
        (exatosLoose q ps).all (fun p => situacaoPermite (jsOr p.situacao ""))) := by
  by_cases h1 : ps.isEmpty
  · simp [decidirDisponibilidade, h1]
  · by_cases h2 : (exatosLoose q ps).isEmpty
    · simp [decidirDisponibilidade, h1, h2]
    · by_cases h3 :
        (exatosLoose q ps).all (fun p => situacaoPermite (jsOr p.situacao ""))
      · simp [decidirDisponibilidade, h1, h2, h3]
      · simp [decidirDisponibilidade, h1, h2, h3]

theorem nfd_small {c : Char} (h : c.toNat < 0xC0) : nfd c = [c] := by
  unfold nfd
  rw [if_pos h]

theorem lowerAlnum_toNat {c : Char} (h : isLowerAlnum c = true) :
    (97 ≤ c.toNat ∧ c.toNat ≤ 122) ∨ (48 ≤ c.toNat ∧ c.toNat ≤ 57) := by
  simpa [isLowerAlnum, Bool.or_eq_true, Bool.and_eq_true,
    decide_eq_true_eq] using h

theorem toLower_fix {c : Char} (h : isLowerAlnum c = true) :
    c.toLower = c := by
  have hn := lowerAlnum_toNat h
  simp only [Char.toLower]
  rw [if_neg (by omega)]

theorem dropWhile_all_false {p : Char → Bool} {m : List Char}
    (h : ∀ c ∈ m, p c = false) : m.dropWhile p = m := by
  cases m with
  | nil => rfl
  | cons c t =>
    rw [List.dropWhile_cons, if_neg]
    simp [h c (by simp)]

theorem normalizeL_fix {m : List Char}
    (h : ∀ c ∈ m, isLowerAlnum c = true) : normalizeL m = m := by
  have hstrip : stripDiacritics m = m := by
    have hflat : (m.map nfd).flatten = m := by
      induction m with
      | nil => rfl
      | cons c t ih =>
        have hc : nfd c = [c] := nfd_small (by
          rcases lowerAlnum_toNat (h c (by simp)) with h' | h' <;> omega)
        simp only [List.map_cons, List.flatten_cons, hc]
        rw [ih (fun c hc => h c (by simp [hc]))]
        rfl
    unfold stripDiacritics
    rw [hflat, List.filter_eq_self.mpr]
    intro c hc
    have := lowerAlnum_toNat (h c hc)
    simp [isCombining]
    omega
  have hlower : lowerStripL m = m := by
    unfold lowerStripL
    rw [hstrip, List.map_congr_left (fun c hc => toLower_fix (h c hc))]
    exact List.map_id m
  have hws : ∀ c ∈ m, isWsB c = false := by
    intro c hc
    have := lowerAlnum_toNat (h c hc)
    simp [isWsB]
    omega
  unfold normalizeL trimL
  rw [hlower, dropWhile_all_false hws,
    dropWhile_all_false (fun c hc => hws c (List.mem_reverse.mp hc)),
    List.reverse_reverse]

theorem canonicalL_idem (l : List Char) :
    canonicalL (canonicalL l) = canonicalL l := by
  have hall : ∀ c ∈ canonicalL l, isLowerAlnum c = true := by
    intro c hc
    exact (List.mem_filter.mp hc).2
  show (normalizeL (canonicalL l)).filter isLowerAlnum = canonicalL l
  rw [normalizeL_fix hall, List.filter_eq_self.mpr hall]

theorem hasSub_nil (l : List Char) : hasSub l [] = true := by
  cases l <;> simp [hasSub, isPre]

theorem stems_edges : ∀ stem ∈ TERMINAIS_STEMS,
    stem.data.head?.all (fun c => !isWsB c) = true ∧
    stem.data.getLast?.all (fun c => !isWsB c) = true := by decide

/-- C8: canonicalization is idempotent: applying `canonical` to an already
canonical string leaves it unchanged. -/
theorem claim8_canonical_idempotent (s : String) :
    canonical (canonical s) = canonical s :=
  congrArg String.mk (canonicalL_idem s.data)

/-- C9: `canonical "Túnel Crew"`, `canonical "TUNEL CREW"` and
`canonical "tunel-crew"` are all equal: canonicalization is insensitive to
diacritics, letter case and punctuation/whitespace differences. -/
theorem claim9_canonical_insensitive :
    canonical "Túnel Crew" = canonical "TUNEL CREW" ∧
    canonical "TUNEL CREW" = canonical "tunel-crew" := by
  exact ⟨by decide, by decide⟩

/-- C2: a status string is classified terminal by `situacaoPermite` iff its
diacritic-stripped lowercase form contains one of the nine stems of
`TERMINAIS_STEMS`; in particular the statuses `Registro de marca em vigor`
and `Alto Renome` are non-terminal (blocking). -/
theorem claim2_terminal_stems :
    (∀ s : String, situacaoPermite s = true ↔
      ∃ stem ∈ TERMINAIS_STEMS, stem.data <:+: lowerStripL s.data) ∧
    situacaoPermite "Registro de marca em vigor" = false ∧
    situacaoPermite "Alto Renome" = false := by
  refine ⟨fun s => ?_, by decide, by decide⟩
  unfold situacaoPermite normalizeL
  rw [List.any_eq_true]
  constructor
  · rintro ⟨stem, hmem, hsub⟩
    obtain ⟨e1, e2⟩ := stems_edges stem hmem
    exact ⟨stem, hmem,
      (infix_trimL_iff stem.data _ e1 e2).mp ((hasSub_iff _ _).mp hsub)⟩
  · rintro ⟨stem, hmem, hinf⟩
    obtain ⟨e1, e2⟩ := stems_edges stem hmem
    exact ⟨stem, hmem,
      (hasSub_iff _ _).mpr ((infix_trimL_iff stem.data _ e1 e2).mpr hinf)⟩

/-- Witness for C2: a concrete archived status is terminal, via the stem
`arquiv`. -/
theorem claim2_witness :
    situacaoPermite "Pedido definitivamente arquivado" = true :=
  (claim2_terminal_stems.1 _).mpr
    ⟨"arquiv", by decide, (hasSub_iff _ _).mp (by decide)⟩

theorem exatosLoose_ne_nil_of {q : String} {ps : List Processo}
    (h : exatosLoose q ps ≠ []) : ps ≠ [] := by
  intro hps
  subst hps
  exact h rfl

/-- C1: whenever the relevant (loosely matched) subset is non-empty,
`decidirDisponibilidade` reports unavailable iff some relevant record has a
non-terminal status, and available iff every relevant record has a terminal
status: a single non-terminal match vetoes availability. -/
theorem claim1_all_or_nothing (q : String) (ps : List Processo)
    (hne : exatosLoose q ps ≠ []) :
    ((decidirDisponibilidade q ps).disponivel = false ↔
      ∃ p ∈ exatosLoose q ps, situacaoPermite (jsOr p.situacao "") = false) ∧
    ((decidirDisponibilidade q ps).disponivel = true ↔
      ∀ p ∈ exatosLoose q ps, situacaoPermite (jsOr p.situacao "") = true) := by
  have h1 : ps.isEmpty = false := List.isEmpty_eq_false.mpr (exatosLoose_ne_nil_of hne)
  have h2 : (exatosLoose q ps).isEmpty = false := List.isEmpty_eq_false.mpr hne
  rw [decidir_disponivel_eq, h1, h2]
  simp only [Bool.false_or]
  constructor
  · simp [List.all_eq_false]
  · simp [List.all_eq_true]

/-- Witness for C1: on the NATURA fixture both matched records are
non-terminal, so the mark is reported unavailable. -/
theorem claim1_witness :
    (decidirDisponibilidade "NATURA" [procNatura1, procNatura2]).disponivel
      = false :=
  (claim1_all_or_nothing "NATURA" [procNatura1, procNatura2] (by decide)).1.mpr
    ⟨procNatura1, by decide, by decide⟩

/-- C3: an empty record list yields available with the no-record-found
reason, and a non-empty list with no relevant record yields available with
the no-exact-record-found reason. -/
theorem claim3_empty_and_no_match :
    (∀ q : String, decidirDisponibilidade q [] =
      { disponivel := true,
        motivo := "Nenhum registro encontrado (busca exata)" }) ∧
    (∀ (q : String) (ps : List Processo), ps ≠ [] → exatosLoose q ps = [] →
      decidirDisponibilidade q ps =
        { disponivel := true, motivo := "Nenhum registro exato encontrado" }) := by
  constructor
  · intro q
    rfl
  · intro q ps hne hempty
    have h1 : ps.isEmpty = false := List.isEmpty_eq_false.mpr hne
    simp [decidirDisponibilidade, h1, hempty]

/-- Witness for C3: one record that does not match the queried mark yields
the no-exact-record reason. -/
theorem claim3_witness :
    decidirDisponibilidade "Marca Nova" [procNatura1] =
      { disponivel := true, motivo := "Nenhum registro exato encontrado" } :=
  claim3_empty_and_no_match.2 "Marca Nova" [procNatura1] (by decide) (by decide)

/-- C6: appending a relevant non-terminal record to a list on which the
verdict was available (with a non-empty all-terminal relevant set) flips
the verdict to unavailable; appending a relevant terminal record to a list
on which the verdict was unavailable leaves it unavailable. -/
theorem claim6_monotonic (q : String) (ps : List Processo) (p : Processo) :
    ((decidirDisponibilidade q ps).disponivel = true →
      exatosLoose q ps ≠ [] →
      equalsLoose (jsOr p.marca "") q = true →
      situacaoPermite (jsOr p.situacao "") = false →
      (decidirDisponibilidade q (ps ++ [p])).disponivel = false) ∧
    ((decidirDisponibilidade q ps).disponivel = false →
      equalsLoose (jsOr p.marca "") q = true →
      situacaoPermite (jsOr p.situacao "") = true →
      (decidirDisponibilidade q (ps ++ [p])).disponivel = false) := by
  have hfil : ∀ hrel : equalsLoose (jsOr p.marca "") q = true,
      exatosLoose q (ps ++ [p]) = exatosLoose q ps ++ [p] := by
    intro hrel
    unfold exatosLoose
    rw [List.filter_append]
    simp [hrel]
  constructor
  · intro _ _ hrel hbad
    rw [decidir_disponivel_eq, hfil hrel]
    have hmem : p ∈ exatosLoose q ps ++ [p] := by simp
    simp only [Bool.or_eq_false_iff]
    refine ⟨⟨by simp, by simp⟩, ?_⟩
    rw [List.all_eq_false]
    exact ⟨p, hmem, by simp [hbad]⟩
  · intro hfalse hrel _
    rw [decidir_disponivel_eq] at hfalse
    simp only [Bool.or_eq_false_iff] at hfalse
    obtain ⟨⟨-, -⟩, hall⟩ := hfalse
    obtain ⟨b, hbmem, hbad⟩ := List.all_eq_false.mp hall
    rw [decidir_disponivel_eq, hfil hrel]
    simp only [Bool.or_eq_false_iff]
    refine ⟨⟨by simp, by simp⟩, ?_⟩
    rw [List.all_eq_false]
    exact ⟨b, by simp [hbmem], hbad⟩

/-- Witness for C6: appending the in-force NATURA record to an archived
match flips the verdict to unavailable, and appending the archived record
to the in-force match keeps it unavailable. -/
theorem claim6_witness :
    (decidirDisponibilidade "NATURA" ([procArquivado] ++ [procNatura1])).disponivel
        = false ∧
    (decidirDisponibilidade "NATURA" ([procNatura1] ++ [procArquivado])).disponivel
        = false :=
  ⟨(claim6_monotonic "NATURA" [procArquivado] procNatura1).1
      (by decide) (by decide) (by decide) (by decide),
   (claim6_monotonic "NATURA" [procNatura1] procArquivado).2
      (by decide) (by decide) (by decide)⟩

/-- C7: every record selected by the exact-match policy is also selected by
the loose-containment policy: the loose relevant set contains the exact
relevant set. -/
theorem claim7_exact_subset_loose (q : String) (ps : List Processo)
    (p : Processo) (hmem : p ∈ exatosExata q ps) : p ∈ exatosLoose q ps := by
  unfold exatosExata at hmem
  rw [List.mem_filter] at hmem
  obtain ⟨hp, heq⟩ := hmem
  have hS : normalizeS (jsOr p.marca "") = normalizeS q := by
    exact beq_iff_eq.mp heq
  have hL : normalizeL (jsOr p.marca "").data = normalizeL q.data :=
    congrArg String.data hS
  have hcanon : canonicalL (jsOr p.marca "").data = canonicalL q.data := by
    unfold canonicalL
    rw [hL]
  unfold exatosLoose
  rw [List.mem_filter]
  refine ⟨hp, ?_⟩
  simp [equalsLoose, hcanon]

/-- Witness for C7: the NATURA record matched exactly is also matched
loosely. -/
theorem claim7_witness : procNatura1 ∈ exatosLoose "NATURA" [procNatura1] :=
  claim7_exact_subset_loose "NATURA" [procNatura1] procNatura1 (by decide)

/-- C4 counterexample: two names that both canonicalize to the empty string
do match under `equalsLoose`, and a record whose name canonicalizes to the
empty string is selected as relevant — it even makes the verdict
unavailable for an unrelated query. -/
theorem claim4_counterexample :
    canonical "!!!" = "" ∧ canonical "???" = "" ∧
    equalsLoose "!!!" "???" = true ∧
    (decidirDisponibilidade "Minha Marca" [procPunct]).disponivel = false := by
  exact ⟨by decide, by decide, by decide, by decide⟩

/-- C4 amended: a record whose name canonicalizes to the empty string is
always selected as relevant by the loose policy, for every query — the
empty canonical form is a substring of every canonical query. -/
theorem claim4_amended_empty_matches_all (q nome : String)
    (h : canonical nome = "") : equalsLoose nome q = true := by
  have hd : canonicalL nome.data = [] := congrArg String.data h
  simp [equalsLoose, hd, hasSub_nil]

/-- Witness for the amended C4: the punctuation-only name matches an
unrelated query. -/
theorem claim4_amended_witness : equalsLoose "!!!" "Minha Marca" = true :=
  claim4_amended_empty_matches_all "Minha Marca" "!!!" (by decide)

/-- C5 counterexample: `TUNEL-CREW` and `Túnel Crew` have equal canonical
forms, yet the exact-match policy does not select the record — the verdict
stays available with the no-exact-record reason. -/
theorem claim5_counterexample :
    canonical "TUNEL-CREW" = canonical "Túnel Crew" ∧
    exatosExata "Túnel Crew" [procTunel] = [] ∧
    decidirDisponibilidadeExata "Túnel Crew" [procTunel] =
      { disponivel := true, motivo := "Nenhum registro exato encontrado",
        processos := [] } := by
  exact ⟨by decide, by decide, by decide⟩

/-- C5 amended: the exact-match policy selects a record iff the
diacritic-stripped lowercased trimmed form (which preserves punctuation) of
its name equals that of the query; `TUNEL-CREW` therefore does not match
`Túnel Crew`, while `TUNEL CREW` does. -/
theorem claim5_amended_exact_normalized :
    (∀ (q : String) (ps : List Processo) (p : Processo),
      p ∈ exatosExata q ps ↔
        p ∈ ps ∧ normalizeS (jsOr p.marca "") = normalizeS q) ∧
    normalizeS "TUNEL-CREW" ≠ normalizeS "Túnel Crew" ∧
    normalizeS "TUNEL CREW" = normalizeS "Túnel Crew" := by
  refine ⟨fun q ps p => ?_, by decide, by decide⟩
  unfold exatosExata
  rw [List.mem_filter]
  simp [beq_iff_eq]

/-- Witness for the amended C5: the NATURA record is selected exactly. -/
theorem claim5_amended_witness :
    procNatura1 ∈ exatosExata "NATURA" [procNatura1] :=
  (claim5_amended_exact_normalized.1 "NATURA" [procNatura1] procNatura1).mpr
    ⟨by decide, by decide⟩

/-- C10: the evidence list of the exact variant's verdict is exactly the
relevant records projected to number, status, holder and class, in input
order; it is empty whenever the reason is no-record-found or
no-exact-record-found. -/
theorem claim10_evidence (q : String) (ps : List Processo) :
    (decidirDisponibilidadeExata q ps).processos =
      (exatosExata q ps).map projOut ∧
    ((decidirDisponibilidadeExata q ps).motivo =
        "Nenhum registro encontrado (busca exata)" ∨
      (decidirDisponibilidadeExata q ps).motivo =
        "Nenhum registro exato encontrado" →
      (decidirDisponibilidadeExata q ps).processos = []) := by
  by_cases h1 : ps.isEmpty
  · have hps : ps = [] := List.isEmpty_iff.mp h1
    subst hps
    exact ⟨rfl, fun _ => rfl⟩
  · by_cases h2 : (exatosExata q ps).isEmpty
    · have he : exatosExata q ps = [] := List.isEmpty_iff.mp h2
      constructor
      · simp [decidirDisponibilidadeExata, h1, h2, he]
      · intro _
        simp [decidirDisponibilidadeExata, h1, h2]
    · by_cases h3 : (exatosExata q ps).all (fun p => situacaoPermite (situacaoDe p))
      · constructor
        · simp [decidirDisponibilidadeExata, h1, h2, h3]
        · intro hmot
          rw [show (decidirDisponibilidadeExata q ps).motivo =
              "Todas as situações são terminais" by
            simp [decidirDisponibilidadeExata, h1, h2, h3]] at hmot
          rcases hmot with hmot | hmot <;> exact absurd hmot (by decide)
      · constructor
        · simp [decidirDisponibilidadeExata, h1, h2, h3]
        · intro hmot
          rw [show (decidirDisponibilidadeExata q ps).motivo =
              "Há situação(ões) não-terminais (registro ativo, Alto Renome, exame, publicação, etc.)" by
            simp [decidirDisponibilidadeExata, h1, h2, h3]] at hmot
          rcases hmot with hmot | hmot <;> exact absurd hmot (by decide)

/-- Witness for C10: with no relevant record the reason is
no-exact-record-found and the evidence list is empty. -/
theorem claim10_witness :
    (decidirDisponibilidadeExata "Marca Nova" [procNatura1]).processos = [] :=
  (claim10_evidence "Marca Nova" [procNatura1]).2 (Or.inr (by decide))

end BuscaMarca
